import Mathlib

/-!
Shallow embedding of `src/tls/rollout.py` (adaptive-tls), an RLlib rollout
script: configuration resolution in `run` and the rollout loop in `rollout`.
Python dicts are modelled as insertion-ordered association lists, dict
values by the inductive `PyVal` (the claims only concern scalar-valued
top-level keys), and the external agent / environment objects as records of
opaque functions supplied as parameters.
-/

namespace TLS

/-- Values stored in configuration dictionaries.  `params.pkl` and the CLI
`--config` JSON hold hyperparameters; the claims only inspect scalar values
(`num_workers`, `env`), so nested dicts are not modelled. -/
inductive PyVal where
  | vInt (n : Int)
  | vStr (s : String)
deriving Repr, DecidableEq

/-- Python truthiness for the modelled values: `0` and `""` are falsy. -/
def PyVal.truthy : PyVal → Bool
  | .vInt n => n != 0
  | .vStr s => s != ""

/-- A Python dict of config entries, as an insertion-ordered association
list (keys are unique in any dict produced by the Python code). -/
abbrev Config := List (String × PyVal)

/-- Delete a key from a dict (`del config[k]`), keeping order. -/
def delKey (c : Config) (k : String) : Config :=
  c.filter (fun p => p.1 != k)

/-- Lines 102-105 of `rollout.py`: drop `num_workers` and
`num_gpus_per_worker` from the file-loaded config. -/
def stripWorkerKeys (c : Config) : Config :=
  delKey (delKey c "num_workers") "num_gpus_per_worker"

/-- One entry of the first dict after a `deep_update` with the second:
the value is overridden when the second dict also binds the key. -/
def overrideEntry {β : Type} (b : List (String × β)) (p : String × β) :
    String × β :=
  match b.lookup p.1 with
  | some v => (p.1, v)
  | none => p

/-- `ray.tune.util.merge_dicts a b`: a copy of `a` deep-updated with `b`.
On the flat dicts modelled here this is the right-biased union: keys of `a`
keep their position (values overridden by `b` where present) and keys only
in `b` are appended in `b`'s order. -/
def merge_dicts (a b : Config) : Config :=
  a.map (overrideEntry b) ++ b.filter (fun p => (a.lookup p.1).isNone)

/-- Lines 90-94: the `params.pkl` file the code settles on — the checkpoint
directory's when it exists, otherwise the parent directory's. -/
def firstParamsFile (ckpt parent : Option Config) : Option Config :=
  match ckpt with
  | some c => some c
  | none => parent

/-- Lines 88-106 of `run`: resolve the configuration.  `ckpt` is the content
of `params.pkl` in the checkpoint directory (`none` when the file does not
exist), `parent` likewise for the parent directory, `cli` is the parsed
`--config` JSON (default `{}`).  The code uses the checkpoint-dir file if it
exists, otherwise the parent-dir file; if neither exists and `--config` is
falsy (empty) it raises `ValueError`; the worker-count keys are deleted from
the loaded config, which is then merged with (overridden by) `cli`. -/
def run_config (ckpt parent : Option Config) (cli : Config) :
    Except String Config :=
  match firstParamsFile ckpt parent with
  | none =>
      if cli.isEmpty then
        .error "Could not find params.pkl in either the checkpoint dir or its parent directory."
      else
        .ok (merge_dicts (stripWorkerKeys []) cli)
  | some c => .ok (merge_dicts (stripWorkerKeys c) cli)

/-- Modelled from the spec sentence of claim C2 (for comparison with
`run_config`, not from the source): a three-way merge of checkpoint-dir
config, parent-dir config and CLI config, each with worker-count keys
removed before merging. -/
def specConfigThreeWayMerge (ckpt parent : Option Config) (cli : Config) :
    Config :=
  merge_dicts
    (merge_dicts (stripWorkerKeys (ckpt.getD [])) (stripWorkerKeys (parent.getD [])))
    (stripWorkerKeys cli)

/-- Python truthiness of the `--env` CLI argument (`None` and `""` falsy). -/
def argsEnvTruthy : Option String → Bool
  | some s => s != ""
  | none => false

/-- Python truthiness of `config.get("env")` (`None` for a missing key). -/
def cfgEnvTruthy (config : Config) : Bool :=
  match config.lookup "env" with
  | some v => v.truthy
  | none => false

/-- Lines 107-110 of `run`: resolve the environment name.  `argsEnv` is the
`--env` CLI argument (`none` when absent).  If it is falsy, the code falls
back to `config.get("env")`; if that is also falsy it calls
`parser.error(...)`, otherwise `args.env` is set from the config. -/
def run_resolveEnv (argsEnv : Option String) (config : Config) :
    Except String PyVal :=
  if argsEnvTruthy argsEnv then
    .ok (.vStr (argsEnv.getD ""))
  else
    match config.lookup "env" with
    | some v =>
        if v.truthy then .ok v
        else .error "the following arguments are required: --env"
    | none => .error "the following arguments are required: --env"

/-- Whether an `Except` result is the error case. -/
def isErr {ε α : Type} : Except ε α → Bool
  | .error _ => true
  | .ok _ => false

/-! Embedding of the `rollout` function (lines 121-209).  Observations,
actions and rewards are modelled as integers; per-agent dicts as ordered
association lists keyed by agent id strings.  The environment is a record
holding the reset observation and a deterministic `step` function over an
internal state of type `σ`; `clipFn` stands for
`clip_action(·, env.action_space)`. -/

/-- Update (or, for a fresh key, append) a binding in an ordered dict,
modelling Python `d[k] = v`. -/
def setKey {β : Type} (l : List (String × β)) (k : String) (v : β) :
    List (String × β) :=
  match l with
  | [] => [(k, v)]
  | (k2, v2) :: rest =>
      if k2 == k then (k, v) :: rest else (k2, v2) :: setKey rest k v

/-- The 4-tuple returned by `env.step` for a multi-agent environment:
per-agent observations (an agent's entry may be `None`), per-agent rewards,
the done dict (holding the `"__all__"` sentinel), and the info/statistics
dict. -/
structure MAStepOut where
  obs : List (String × Option Int)
  reward : List (String × Int)
  done : List (String × Bool)
  info : List (String × Int)
deriving Repr, DecidableEq

/-- A deterministic multi-agent environment with internal state `σ`. -/
structure MAEnv (σ : Type) where
  init : σ
  resetObs : List (String × Option Int)
  clipFn : List (String × Int) → List (String × Int)
  step : σ → List (String × Int) → σ × MAStepOut

/-- The restored RLlib agent, as seen by the multi-agent branch of the
loop: the policy mapping function, the per-policy initial RNN states
(`state_init`, line 130), and the `compute_action` entry points. -/
structure MAAgent where
  policyMappingFn : String → String
  stateInit0 : List (String × List Int)
  computeAction : Int → String → Int
  computeActionLstm : Int → List Int → String → Int × List Int
  clipActions : Bool

/-- Line 131: `use_lstm = {p: len(s) > 0 for p, s in state_init.items()}`,
read back at a policy id. -/
def useLstm (ag : MAAgent) (p : String) : Bool :=
  match ag.stateInit0.lookup p with
  | some s => s.length > 0
  | none => false

/-- Lines 148-165: build `action_dict` by iterating over `state.keys()`.
For each agent whose observation is not `None`, the `setdefault` call first
evaluates its default argument `policy_agent_mapping(agent_id)` (Python
evaluates arguments eagerly, so this happens whether or not the key is
cached; the ghost counter `evals` counts these evaluations), then uses the
cached policy id if present.  Returns the action dict, the updated mapping
cache, the updated `state_init`, and the evaluation counter. -/
def maSelectActions (ag : MAAgent) (cache : List (String × String))
    (stInit : List (String × List Int)) (evals : Nat)
    (state : List (String × Option Int)) :
    List (String × Int) × List (String × String) × List (String × List Int) × Nat :=
  match state with
  | [] => ([], cache, stInit, evals)
  | (aid, aobs) :: rest =>
    match aobs with
    | none => maSelectActions ag cache stInit evals rest
    | some ob =>
      let evals := evals + 1
      let pid := (cache.lookup aid).getD (ag.policyMappingFn aid)
      let cache := match cache.lookup aid with
        | some _ => cache
        | none => cache ++ [(aid, pid)]
      if useLstm ag pid then
        let s0 := (stInit.lookup pid).getD []
        let ares := ag.computeActionLstm ob s0 pid
        let stInit := setKey stInit pid ares.2
        let tail := maSelectActions ag cache stInit evals rest
        ((aid, ares.1) :: tail.1, tail.2)
      else
        let a := ag.computeAction ob pid
        let tail := maSelectActions ag cache stInit evals rest
        ((aid, a) :: tail.1, tail.2)

/-- One recorded trajectory entry (line 198):
`[state, action, next_state, reward, done]`, where `done` is the boolean
extracted at line 180. -/
structure MATransition where
  state : List (String × Option Int)
  action : List (String × Int)
  next_state : List (String × Option Int)
  reward : List (String × Int)
  done : Bool
deriving Repr, DecidableEq

/-- A cumulative-statistics entry (lines 188-192). -/
structure StatEntry where
  statistics : List (String × Int)
  episode_reward : List (String × Int)
  timestamp : Int
deriving Repr, DecidableEq

/-- The mutable state of the `while` loop for the multi-agent branch.
`outsTrace` is a ghost field recording the sequence of `env.step` results,
used to state what the accumulated records contain. -/
structure MALoopState (σ : Type) where
  envSt : σ
  steps : Nat
  state : List (String × Option Int)
  done : Bool
  rewardTotal : Int
  rewardForEach : List (String × Int)
  statistics : List StatEntry
  time : Int
  cache : List (String × String)
  stateInit : List (String × List Int)
  traj : List MATransition
  evals : Nat
  outsTrace : List MAStepOut

/-- Lines 137-145: the loop-entry state after `env.reset()`. -/
def maInitState {σ : Type} (env : MAEnv σ) (ag : MAAgent) : MALoopState σ :=
  { envSt := env.init, steps := 0, state := env.resetObs, done := false,
    rewardTotal := 0, rewardForEach := [], statistics := [], time := -5,
    cache := [], stateInit := ag.stateInit0, traj := [], evals := 0,
    outsTrace := [] }

/-- `reward_for_each[k] += v` over all items of a reward dict
(`collections.defaultdict(int)`: missing keys read as `0`). -/
def addRewards (rfe : List (String × Int)) (reward : List (String × Int)) :
    List (String × Int) :=
  reward.foldl (fun acc p => setKey acc p.1 ((acc.lookup p.1).getD 0 + p.2)) rfe

/-- `sum(reward.values())`. -/
def sumRewards (reward : List (String × Int)) : Int :=
  reward.foldl (fun acc p => acc + p.2) 0

/-- The action dict computed at lines 148-165 from a loop state. -/
def maActionChosen {σ : Type} (ag : MAAgent) (s : MALoopState σ) :
    List (String × Int) :=
  (maSelectActions ag s.cache s.stateInit s.evals s.state).1

/-- Lines 173-177: the action actually passed to `env.step`, clipped to the
action space exactly when `agent.config["clip_actions"]` is set. -/
def maActionPassed {σ : Type} (env : MAEnv σ) (ag : MAAgent)
    (s : MALoopState σ) : List (String × Int) :=
  if ag.clipActions then env.clipFn (maActionChosen ag s)
  else maActionChosen ag s

/-- The `env.step` result of the iteration starting at loop state `s`. -/
def maStepOutAt {σ : Type} (env : MAEnv σ) (ag : MAAgent)
    (s : MALoopState σ) : MAStepOut :=
  (env.step s.envSt (maActionPassed env ag s)).2

/-- Line 180: `done = done["__all__"]` (the sentinel read; `getD false`
stands in for the `KeyError` a missing sentinel would raise). -/
def maDoneAt {σ : Type} (env : MAEnv σ) (ag : MAAgent)
    (s : MALoopState σ) : Bool :=
  ((maStepOutAt env ag s).done.lookup "__all__").getD false

/-- The transition recorded at line 198 for the iteration starting at `s`
(the `action` stored is the unclipped `action_dict`). -/
def maTransAt {σ : Type} (env : MAEnv σ) (ag : MAAgent)
    (s : MALoopState σ) : MATransition :=
  { state := s.state, action := maActionChosen ag s,
    next_state := (maStepOutAt env ag s).obs,
    reward := (maStepOutAt env ag s).reward,
    done := maDoneAt env ag s }

/-- Lines 147-200: one iteration of the `while` body in the multi-agent
branch (`multiagent == True`, `out` supplied or not via `out`). -/
def maLoopBody {σ : Type} (env : MAEnv σ) (ag : MAAgent)
    (out : Option String) (s : MALoopState σ) : MALoopState σ :=
  let sel := maSelectActions ag s.cache s.stateInit s.evals s.state
  let actionDict := sel.1
  let cache := sel.2.1
  let stInit := sel.2.2.1
  let evals := sel.2.2.2
  let stepRes :=
    if ag.clipActions then env.step s.envSt (env.clipFn actionDict)
    else env.step s.envSt actionDict
  let o := stepRes.2
  let doneAll := (o.done.lookup "__all__").getD false
  let rewardTotal := s.rewardTotal + sumRewards o.reward
  let rfe := addRewards s.rewardForEach o.reward
  let time := s.time + 5
  let statistics := s.statistics ++
    [{ statistics := o.info, episode_reward := rfe, timestamp := time }]
  let traj :=
    if out.isSome then
      s.traj ++ [{ state := s.state, action := actionDict,
                   next_state := o.obs, reward := o.reward, done := doneAll }]
    else s.traj
  { envSt := stepRes.1, steps := s.steps + 1, state := o.obs, done := doneAll,
    rewardTotal := rewardTotal, rewardForEach := rfe,
    statistics := statistics, time := time, cache := cache,
    stateInit := stInit, traj := traj, evals := evals,
    outsTrace := s.outsTrace ++ [o] }

/-- `num_steps or steps + 1`: Python `or` returns the left operand when it
is truthy (`num_steps` is `None` or an `int`; `0` is falsy). -/
def pyOrInt (numSteps : Option Int) (d : Int) : Int :=
  match numSteps with
  | some v => if v == 0 then d else v
  | none => d

/-- Line 146: the `while` condition
`not done and steps < (num_steps or steps + 1)`. -/
def loopGuard (numSteps : Option Int) (steps : Nat) (done : Bool) : Bool :=
  !done && decide ((steps : Int) < pyOrInt numSteps ((steps : Int) + 1))

/-- The `while` loop (line 146), run with explicit fuel: the Python loop
has no intrinsic termination bound when `num_steps` is `0` or `None`. -/
def maLoop {σ : Type} (env : MAEnv σ) (ag : MAAgent) (out : Option String)
    (numSteps : Option Int) : Nat → MALoopState σ → MALoopState σ
  | 0, s => s
  | fuel + 1, s =>
      if loopGuard numSteps s.steps s.done then
        maLoop env ag out numSteps fuel (maLoopBody env ag out s)
      else s

/-- The observable result of `rollout`: the final loop state, the list of
JSON serializations of `statistics` (lines 205-206 write exactly one), and
the list of pickle dumps of the trajectory (lines 208-209: one iff `out`
was supplied). -/
structure MARolloutResult (σ : Type) where
  final : MALoopState σ
  statWrites : List (List StatEntry)
  trajWrites : List (List MATransition)

/-- Lines 121-209 for the multi-agent branch: run the loop from the reset
state, then perform the writes of the epilogue. -/
def maRollout {σ : Type} (env : MAEnv σ) (ag : MAAgent)
    (numSteps : Option Int) (out : Option String) (fuel : Nat) :
    MARolloutResult σ :=
  let fin := maLoop env ag out numSteps fuel (maInitState env ag)
  { final := fin, statWrites := [fin.statistics],
    trajWrites := if out.isSome then [fin.traj] else [] }

/-! Embedding of the single-agent branch of `rollout` (lines 132-135:
`env = gym.make(env_name)`, `multiagent = False`,
`use_lstm = {'default': False}`), whose loop takes the `else` sides of the
`if multiagent` branches: a scalar observation/action/reward, `done` already
a boolean, and no statistics accumulation. -/

/-- A deterministic single-agent gym environment with internal state `σ`;
`step` returns `(next_state, reward, done, stat)`. -/
structure SAEnv (σ : Type) where
  init : σ
  resetObs : Int
  clipFn : Int → Int
  step : σ → Int → σ × Int × Int × Bool × List (String × Int)

/-- The agent as used by the single-agent, non-LSTM path:
`action = agent.compute_action(state)` (line 171). -/
structure SAAgent where
  computeAction : Int → Int
  clipActions : Bool

/-- A trajectory entry of the single-agent branch:
`[state, action, next_state, reward, done]`. -/
structure SATransition where
  state : Int
  action : Int
  next_state : Int
  reward : Int
  done : Bool
deriving Repr, DecidableEq

/-- The `while` loop state for the single-agent branch.  `statistics` and
`time` are kept because the epilogue (line 206) serializes `statistics`
regardless of the branch; neither is touched inside this branch's body. -/
structure SALoopState (σ : Type) where
  envSt : σ
  steps : Nat
  state : Int
  done : Bool
  rewardTotal : Int
  statistics : List StatEntry
  time : Int
  traj : List SATransition

/-- Loop-entry state of the single-agent branch (lines 137-145). -/
def saInitState {σ : Type} (env : SAEnv σ) : SALoopState σ :=
  { envSt := env.init, steps := 0, state := env.resetObs, done := false,
    rewardTotal := 0, statistics := [], time := -5, traj := [] }

/-- One iteration of the `while` body in the single-agent branch
(lines 166-200, `else` sides). -/
def saLoopBody {σ : Type} (env : SAEnv σ) (ag : SAAgent)
    (out : Option String) (s : SALoopState σ) : SALoopState σ :=
  let action := ag.computeAction s.state
  let stepRes :=
    if ag.clipActions then env.step s.envSt (env.clipFn action)
    else env.step s.envSt action
  let next := stepRes.2.1
  let reward := stepRes.2.2.1
  let done := stepRes.2.2.2.1
  let traj :=
    if out.isSome then
      s.traj ++ [{ state := s.state, action := action, next_state := next,
                   reward := reward, done := done }]
    else s.traj
  { envSt := stepRes.1, steps := s.steps + 1, state := next, done := done,
    rewardTotal := s.rewardTotal + reward, statistics := s.statistics,
    time := s.time, traj := traj }

/-- The `while` loop (line 146) for the single-agent branch, with fuel. -/
def saLoop {σ : Type} (env : SAEnv σ) (ag : SAAgent) (out : Option String)
    (numSteps : Option Int) : Nat → SALoopState σ → SALoopState σ
  | 0, s => s
  | fuel + 1, s =>
      if loopGuard numSteps s.steps s.done then
        saLoop env ag out numSteps fuel (saLoopBody env ag out s)
      else s

/-- The observable result of a single-agent `rollout`. -/
structure SARolloutResult (σ : Type) where
  final : SALoopState σ
  statWrites : List (List StatEntry)
  trajWrites : List (List SATransition)

/-- `rollout` for the single-agent branch, loop plus epilogue writes. -/
def saRollout {σ : Type} (env : SAEnv σ) (ag : SAAgent)
    (numSteps : Option Int) (out : Option String) (fuel : Nat) :
    SARolloutResult σ :=
  let fin := saLoop env ag out numSteps fuel (saInitState env)
  { final := fin, statWrites := [fin.statistics],
    trajWrites := if out.isSome then [fin.traj] else [] }

/-! Specification-layer definitions used to state what the accumulated
records contain, phrased over the ghost trace of `env.step` results. -/

/-- Cumulative per-agent reward after the steps of `outs` (the repeated
`reward_for_each[k] += v` updates, starting from the empty defaultdict). -/
def cumReward (outs : List MAStepOut) : List (String × Int) :=
  outs.foldl (fun acc o => addRewards acc o.reward) []

/-- Placeholder step result for out-of-range `List.getD` reads. -/
def dfltStepOut : MAStepOut :=
  { obs := [], reward := [], done := [], info := [] }

/-- The statistics entry the loop appends for step `i` (0-based): that
step's info dict, the cumulative per-agent reward up to and including step
`i`, and the synthetic timestamp `5 * i` (from `time = -5` and `time += 5`
before the append). -/
def expectedStatEntry (outs : List MAStepOut) (i : Nat) : StatEntry :=
  { statistics := (outs.getD i dfltStepOut).info,
    episode_reward := cumReward (outs.take (i + 1)),
    timestamp := 5 * (i : Int) }

/-- The whole statistics sequence determined by a trace of step results. -/
def expectedStats (outs : List MAStepOut) : List StatEntry :=
  (List.range outs.length).map (expectedStatEntry outs)

/-- Number of agents with a non-`None` observation in a state dict: the
number of `policy_agent_mapping` evaluations one loop iteration performs. -/
def countSomeObs (state : List (String × Option Int)) : Nat :=
  (state.filter (fun p => p.2.isSome)).length

/-- Invariant of the multi-agent loop relating the bookkeeping fields to
the ghost trace of step results: the step counter counts the steps taken,
the synthetic clock is 5 per step starting from `-5`, `reward_for_each` is
the cumulative per-agent reward, and `statistics` holds exactly the
per-step entries described by `expectedStats`. -/
def MAInv {σ : Type} (s : MALoopState σ) : Prop :=
  s.steps = s.outsTrace.length ∧
  s.time = 5 * (s.outsTrace.length : Int) - 5 ∧
  s.rewardForEach = cumReward s.outsTrace ∧
  s.statistics = expectedStats s.outsTrace

/-! Concrete environments and agents used as witnesses and
counterexamples. -/

/-- A single-agent gym-style environment that ends the episode on the first
step. -/
def exEnvSA : SAEnv Nat :=
  { init := 0, resetObs := 4, clipFn := fun a => min 1 (max (-1) a),
    step := fun st _a => (st + 1, 9, 2, true, [("waiting", 3)]) }

/-- A stateless single-agent policy. -/
def exAgSA : SAAgent :=
  { computeAction := fun o => o + 1, clipActions := false }

/-- A multi-agent environment with the single agent id `"a"`, ending the
episode (sentinel `"__all__"` true) on the second step. -/
def exEnvMA : MAEnv Nat :=
  { init := 0, resetObs := [("a", some 0)],
    clipFn := fun l => l.map (fun p => (p.1, min 1 (max (-1) p.2))),
    step := fun st _a =>
      (st + 1,
       { obs := [("a", some (st + 1 : Int))], reward := [("a", 1)],
         done := [("__all__", decide (2 ≤ st + 1))],
         info := [("q", (st : Int))] }) }

/-- A stateless multi-agent policy mapping every agent to policy `"p"`. -/
def exAgMA : MAAgent :=
  { policyMappingFn := fun _ => "p", stateInit0 := [("p", [])],
    computeAction := fun o _ => o + 3,
    computeActionLstm := fun o s _ => (o, s), clipActions := false }

/-- The same policy with `clip_actions` enabled. -/
def exAgMAclip : MAAgent :=
  { exAgMA with clipActions := true }

/-! Helper lemmas about ordered-dict lookup and `merge_dicts`. -/

theorem lookup_append {β : Type} (l₁ l₂ : List (String × β)) (k : String) :
    (l₁ ++ l₂).lookup k = (l₁.lookup k).or (l₂.lookup k) := by
  induction l₁ with
  | nil => simp
  | cons p rest ih =>
    obtain ⟨k1, v1⟩ := p
    cases hk : (k == k1) <;> simp [List.lookup_cons, hk, ih]

theorem lookup_map_override {β : Type} (a b : List (String × β)) (k : String) :
    (a.map (overrideEntry b)).lookup k =
      (a.lookup k).map (fun v0 => (b.lookup k).getD v0) := by
  induction a with
  | nil => simp
  | cons p rest ih =>
    obtain ⟨k1, v1⟩ := p
    cases hk : (k == k1)
    · cases hb : b.lookup k1 <;>
        simp [overrideEntry, List.lookup_cons, hk, hb, ih]
    · have hkk : k = k1 := eq_of_beq hk
      subst hkk
      cases hb : b.lookup k <;>
        simp [overrideEntry, List.lookup_cons, hb]

theorem lookup_filter_keyfree {β : Type} (a b : List (String × β))
    (k : String) (ha : a.lookup k = none) :
    (b.filter (fun p => (a.lookup p.1).isNone)).lookup k = b.lookup k := by
  induction b with
  | nil => simp
  | cons p rest ih =>
    obtain ⟨k1, v1⟩ := p
    cases hk : (k == k1)
    · cases hf : (a.lookup k1).isNone <;>
        simp [List.filter_cons, hf, List.lookup_cons, hk, ih]
    · have hkk : k = k1 := eq_of_beq hk
      subst hkk
      simp [List.filter_cons, ha, List.lookup_cons]

/-- Lookup semantics of `merge_dicts`: the second dict wins where both are
defined. -/
theorem merge_dicts_lookup (a b : Config) (k : String) :
    (merge_dicts a b).lookup k = (b.lookup k).or (a.lookup k) := by
  unfold merge_dicts
  rw [lookup_append, lookup_map_override]
  cases ha : a.lookup k
  · rw [lookup_filter_keyfree a b k ha]
    cases b.lookup k <;> simp
  · cases hb : b.lookup k <;> simp [hb]

/-! Helper lemmas about the multi-agent rollout loop. -/

/-- The loop body written in terms of the named per-iteration
observables. -/
theorem maLoopBody_char {σ : Type} (env : MAEnv σ) (ag : MAAgent)
    (out : Option String) (s : MALoopState σ) :
    maLoopBody env ag out s =
      { envSt := (env.step s.envSt (maActionPassed env ag s)).1,
        steps := s.steps + 1,
        state := (maStepOutAt env ag s).obs,
        done := maDoneAt env ag s,
        rewardTotal := s.rewardTotal + sumRewards (maStepOutAt env ag s).reward,
        rewardForEach := addRewards s.rewardForEach (maStepOutAt env ag s).reward,
        statistics := s.statistics ++
          [{ statistics := (maStepOutAt env ag s).info,
             episode_reward :=
               addRewards s.rewardForEach (maStepOutAt env ag s).reward,
             timestamp := s.time + 5 }],
        time := s.time + 5,
        cache := (maSelectActions ag s.cache s.stateInit s.evals s.state).2.1,
        stateInit := (maSelectActions ag s.cache s.stateInit s.evals s.state).2.2.1,
        traj := if out.isSome then s.traj ++ [maTransAt env ag s] else s.traj,
        evals := (maSelectActions ag s.cache s.stateInit s.evals s.state).2.2.2,
        outsTrace := s.outsTrace ++ [maStepOutAt env ag s] } := by
  cases hc : ag.clipActions <;>
    simp [maLoopBody, maStepOutAt, maActionPassed, maDoneAt, maTransAt,
          maActionChosen, hc]

/-- A property preserved by the loop body is preserved by the whole loop. -/
theorem maLoop_preserves {σ : Type} (env : MAEnv σ) (ag : MAAgent)
    (out : Option String) (ns : Option Int) (P : MALoopState σ → Prop)
    (hP : ∀ s, P s → P (maLoopBody env ag out s)) :
    ∀ fuel s, P s → P (maLoop env ag out ns fuel s) := by
  intro fuel
  induction fuel with
  | zero => intro s h; exact h
  | succ n ih =>
    intro s h
    rw [maLoop]
    split
    · exact ih _ (hP _ h)
    · exact h

/-- Appending one step result appends exactly one expected entry. -/
theorem expectedStats_append (outs : List MAStepOut) (o : MAStepOut) :
    expectedStats (outs ++ [o]) =
      expectedStats outs ++
        [{ statistics := o.info,
           episode_reward := addRewards (cumReward outs) o.reward,
           timestamp := 5 * (outs.length : Int) }] := by
  unfold expectedStats
  have hlen : (outs ++ [o]).length = outs.length + 1 := by simp
  rw [hlen, List.range_succ, List.map_append]
  congr 1
  · apply List.map_congr_left
    intro i hi
    have hi' : i < outs.length := List.mem_range.mp hi
    unfold expectedStatEntry
    rw [List.getD_append _ _ _ _ hi',
        List.take_append_of_le_length (by omega)]
  · simp only [List.map_cons, List.map_nil]
    unfold expectedStatEntry
    rw [List.getD_append_right _ _ _ _ (le_refl _)]
    rw [List.take_of_length_le (by simp)]
    simp [cumReward, List.foldl_append]

/-- The loop body preserves the bookkeeping invariant. -/
theorem maLoopBody_inv {σ : Type} (env : MAEnv σ) (ag : MAAgent)
    (out : Option String) (s : MALoopState σ) (h : MAInv s) :
    MAInv (maLoopBody env ag out s) := by
  obtain ⟨h1, h2, h3, h4⟩ := h
  rw [maLoopBody_char]
  refine ⟨?_, ?_, ?_, ?_⟩
  · simp [h1]
  · simp only [List.length_append, List.length_cons, List.length_nil]
    rw [h2]
    push_cast
    ring
  · simp [h3, cumReward, List.foldl_append]
  · rw [expectedStats_append, h4, h3, h2]
    have : 5 * ((s.outsTrace.length : Int)) - 5 + 5 =
        5 * (s.outsTrace.length : Int) := by ring
    rw [this]

/-- The reset state satisfies the invariant. -/
theorem maInitState_inv {σ : Type} (env : MAEnv σ) (ag : MAAgent) :
    MAInv (maInitState env ag) := by
  refine ⟨rfl, by norm_num [maInitState], rfl, rfl⟩

/-- Every pair the action-selection pass adds to the mapping cache is of
the form `(aid, policy_agent_mapping aid)`. -/
theorem maSelectActions_cache_mem (ag : MAAgent)
    (state : List (String × Option Int)) :
    ∀ cache stInit evals p,
      p ∈ (maSelectActions ag cache stInit evals state).2.1 →
      p ∈ cache ∨ p.2 = ag.policyMappingFn p.1 := by
  induction state with
  | nil =>
      intro cache stInit evals p hp
      exact Or.inl (by simpa [maSelectActions] using hp)
  | cons pr rest ih =>
      intro cache stInit evals p hp
      obtain ⟨aid, aobs⟩ := pr
      cases aobs with
      | none =>
          exact ih cache stInit evals p (by simpa [maSelectActions] using hp)
      | some ob =>
          cases hl : cache.lookup aid with
          | some q =>
              simp only [maSelectActions, hl, Option.getD_some] at hp
              split at hp
              all_goals exact ih _ _ _ p hp
          | none =>
              simp only [maSelectActions, hl, Option.getD_none] at hp
              split at hp
              all_goals {
                rcases ih _ _ _ p hp with hmem | heq
                · rcases List.mem_append.mp hmem with hc | hc
                  · exact Or.inl hc
                  · right
                    have hpa : p = (aid, ag.policyMappingFn aid) := by
                      simpa using hc
                    rw [hpa]
                · exact Or.inr heq }

/-- The action-selection pass evaluates `policy_agent_mapping` exactly once
per agent whose observation is not `None`, whatever the cache contains. -/
theorem maSelectActions_evals (ag : MAAgent)
    (state : List (String × Option Int)) :
    ∀ cache stInit evals,
      (maSelectActions ag cache stInit evals state).2.2.2 =
        evals + countSomeObs state := by
  induction state with
  | nil => intro cache stInit evals; simp [maSelectActions, countSomeObs]
  | cons pr rest ih =>
      intro cache stInit evals
      obtain ⟨aid, aobs⟩ := pr
      cases aobs with
      | none =>
          simp [maSelectActions, countSomeObs, List.filter_cons] at ih ⊢
          exact ih cache stInit evals
      | some ob =>
          have hcount : countSomeObs ((aid, some ob) :: rest) =
              countSomeObs rest + 1 := by
            simp [countSomeObs, List.filter_cons]
          rw [hcount]
          cases hl : cache.lookup aid with
          | some q =>
              simp only [maSelectActions, hl, Option.getD_some]
              split
              all_goals rw [ih]; omega
          | none =>
              simp only [maSelectActions, hl, Option.getD_none]
              split
              all_goals rw [ih]; omega

/-- A property preserved by the single-agent loop body is preserved by the
whole loop. -/
theorem saLoop_preserves {σ : Type} (env : SAEnv σ) (ag : SAAgent)
    (out : Option String) (ns : Option Int) (P : SALoopState σ → Prop)
    (hP : ∀ s, P s → P (saLoopBody env ag out s)) :
    ∀ fuel s, P s → P (saLoop env ag out ns fuel s) := by
  intro fuel
  induction fuel with
  | zero => intro s h; exact h
  | succ n ih =>
    intro s h
    rw [saLoop]
    split
    · exact ih _ (hP _ h)
    · exact h

/-- Bookkeeping bound helper: when `0 < n`, the loop guard only lets an
iteration run while `steps < n`, so the final counter never exceeds `n`. -/
theorem maLoop_steps_le {σ : Type} (env : MAEnv σ) (ag : MAAgent)
    (out : Option String) (n : Int) (hn : 0 < n) :
    ∀ fuel (s : MALoopState σ), (s.steps : Int) ≤ n →
      ((maLoop env ag out (some n) fuel s).steps : Int) ≤ n := by
  intro fuel
  induction fuel with
  | zero => intro s h; exact h
  | succ m ih =>
      intro s h
      rw [maLoop]
      split
      · rename_i hg
        have hne : (n == 0) = false := by
          simp only [beq_eq_false_iff_ne, ne_eq]
          omega
        simp [loopGuard, pyOrInt, hne] at hg
        obtain ⟨-, hg2⟩ := hg
        have hstep : (maLoopBody env ag out s).steps = s.steps + 1 := by
          rw [maLoopBody_char]
        apply ih
        rw [hstep]
        push_cast
        omega
      · exact h

/-! Theorems settling the claims. -/

/-- Claim C5: `run` raises the missing-configuration `ValueError` if and
only if no `params.pkl` exists in the checkpoint directory or its parent
and the CLI `--config` mapping is empty (falsy); with a config file found
or a non-empty `--config`, no such error is raised. -/
theorem run_config_error_iff_no_source (ckpt parent : Option Config)
    (cli : Config) :
    isErr (run_config ckpt parent cli) = true ↔
      ckpt = none ∧ parent = none ∧ cli = [] := by
  cases ckpt <;> cases parent <;> cases cli <;>
    simp [run_config, firstParamsFile, isErr]

/-- Witness for claim C5: with no config file anywhere and an empty CLI
config, `run_config` errors. -/
theorem run_config_error_iff_no_source_w :
    isErr (run_config none none []) = true :=
  (run_config_error_iff_no_source none none []).mpr ⟨rfl, rfl, rfl⟩

/-- Claim C6: the CLI parser error for the environment name occurs if and
only if the `--env` argument is falsy and the merged config has no truthy
`env` value; when only the config supplies it, `args.env` is set to that
config value and no error occurs. -/
theorem run_resolveEnv_error_iff (argsEnv : Option String) (config : Config) :
    (isErr (run_resolveEnv argsEnv config) = true ↔
      argsEnvTruthy argsEnv = false ∧ cfgEnvTruthy config = false) ∧
    (argsEnvTruthy argsEnv = false →
      ∀ v, config.lookup "env" = some v → v.truthy = true →
        run_resolveEnv argsEnv config = .ok v) := by
  constructor
  · cases hA : argsEnvTruthy argsEnv
    · cases hL : config.lookup "env" with
      | none => simp [run_resolveEnv, hA, hL, cfgEnvTruthy, isErr]
      | some v =>
          cases hT : v.truthy <;>
            simp [run_resolveEnv, hA, hL, hT, cfgEnvTruthy, isErr]
    · simp [run_resolveEnv, hA, isErr]
  · intro hA v hL hT
    simp [run_resolveEnv, hA, hL, hT]

/-- Witness for claim C6: with no `--env` argument and a config carrying a
non-empty `env` string, the resolved environment is the config's value. -/
theorem run_resolveEnv_error_iff_w :
    run_resolveEnv none [("env", PyVal.vStr "SUMOEnv-v0")] =
      .ok (PyVal.vStr "SUMOEnv-v0") :=
  (run_resolveEnv_error_iff none [("env", PyVal.vStr "SUMOEnv-v0")]).2 rfl
    (PyVal.vStr "SUMOEnv-v0") (by rfl) (by rfl)

/-- Claim C2 counterexample: the configuration is not a three-way merge.
With `params.pkl` in both directories, the parent's key `"b"` is absent
from the result (the parent file is ignored), unlike the claim's reading
`specConfigThreeWayMerge`; and a CLI-supplied `num_workers` key survives,
so worker-count keys are not removed from all sources before merging. -/
theorem run_config_cex :
    run_config (some [("a", PyVal.vInt 1)]) (some [("b", PyVal.vInt 2)]) [] =
      .ok [("a", PyVal.vInt 1)] ∧
    specConfigThreeWayMerge (some [("a", PyVal.vInt 1)])
        (some [("b", PyVal.vInt 2)]) [] =
      [("a", PyVal.vInt 1), ("b", PyVal.vInt 2)] ∧
    run_config none none [("num_workers", PyVal.vInt 3)] =
      .ok [("num_workers", PyVal.vInt 3)] ∧
    specConfigThreeWayMerge none none [("num_workers", PyVal.vInt 3)] = [] :=
  ⟨rfl, rfl, rfl, rfl⟩

/-- Claim C2 (amended): the configuration is built from at most two
sources — the first-found `params.pkl` (checkpoint directory preferred,
else parent; treated as empty when absent) with the worker-count keys
removed, overridden key-by-key by the CLI `--config` mapping, from which
worker-count keys are not removed. -/
theorem run_config_spec (ckpt parent : Option Config) (cli : Config)
    (c : Config) (h : run_config ckpt parent cli = .ok c) (k : String) :
    c.lookup k =
      (cli.lookup k).or
        ((stripWorkerKeys ((firstParamsFile ckpt parent).getD [])).lookup k) := by
  cases hf : firstParamsFile ckpt parent with
  | none =>
      simp only [run_config, hf] at h
      split at h
      · exact absurd h (by simp)
      · have hc : c = merge_dicts (stripWorkerKeys []) cli := by
          injection h with h2
          exact h2.symm
        rw [hc, merge_dicts_lookup]
        rfl
  | some cf =>
      simp only [run_config, hf] at h
      have hc : c = merge_dicts (stripWorkerKeys cf) cli := by
        injection h with h2
        exact h2.symm
      rw [hc, merge_dicts_lookup]
      rfl

/-- Witness for the amended claim C2 at concrete inputs: a checkpoint-dir
config with a worker key, no parent file, and a CLI override. -/
theorem run_config_spec_w :
    ([("env", PyVal.vStr "S"), ("steps", PyVal.vInt 1)] : Config).lookup "env" =
      (([("steps", PyVal.vInt 1)] : Config).lookup "env").or
        ((stripWorkerKeys ((firstParamsFile
            (some [("num_workers", PyVal.vInt 2), ("env", PyVal.vStr "S")])
            none).getD [])).lookup "env") :=
  run_config_spec
    (some [("num_workers", PyVal.vInt 2), ("env", PyVal.vStr "S")]) none
    [("steps", PyVal.vInt 1)]
    [("env", PyVal.vStr "S"), ("steps", PyVal.vInt 1)] (by rfl) "env"

/-- Claim C1 counterexample: a single-agent rollout executes one
environment step yet accumulates no statistics entry (the append at lines
188-192 sits inside the `if multiagent` branch), so the statistics record
does not have one entry per environment step for every rollout. -/
theorem rollout_statistics_cex :
    (saRollout exEnvSA exAgSA (some 10) none 20).final.steps = 1 ∧
    (saRollout exEnvSA exAgSA (some 10) none 20).final.statistics.length = 0 ∧
    (saRollout exEnvSA exAgSA (some 10) none 20).final.statistics.length ≠
      (saRollout exEnvSA exAgSA (some 10) none 20).final.steps :=
  ⟨rfl, rfl, by decide⟩

/-- Claim C1 (amended): for every multi-agent rollout the statistics record
is an ordered sequence with one entry per environment step — each entry
holding that step's environment-reported info dict, the cumulative
per-agent reward up to and including that step, and the synthetic timestamp
`5 * i` for the i-th step — and it is serialized as JSON exactly once at
the end; a single-agent rollout serializes (once) an empty statistics
record regardless of how many steps it executes. -/
theorem rollout_statistics_spec {σ σ' : Type} (env : MAEnv σ) (ag : MAAgent)
    (ns : Option Int) (out : Option String) (fuel : Nat)
    (envS : SAEnv σ') (agS : SAAgent) (nsS : Option Int)
    (outS : Option String) (fuelS : Nat) :
    (maRollout env ag ns out fuel).statWrites =
      [(maRollout env ag ns out fuel).final.statistics] ∧
    (maRollout env ag ns out fuel).final.steps =
      (maRollout env ag ns out fuel).final.outsTrace.length ∧
    (maRollout env ag ns out fuel).final.statistics =
      expectedStats (maRollout env ag ns out fuel).final.outsTrace ∧
    (saRollout envS agS nsS outS fuelS).statWrites =
      [(saRollout envS agS nsS outS fuelS).final.statistics] ∧
    (saRollout envS agS nsS outS fuelS).final.statistics = [] := by
  have hinv : MAInv (maLoop env ag out ns fuel (maInitState env ag)) :=
    maLoop_preserves env ag out ns MAInv (maLoopBody_inv env ag out) fuel _
      (maInitState_inv env ag)
  have hsa : (saLoop envS agS outS nsS fuelS (saInitState envS)).statistics = [] :=
    saLoop_preserves envS agS outS nsS (fun s => s.statistics = [])
      (fun s h => by simp [saLoopBody, h]) fuelS _ rfl
  exact ⟨rfl, hinv.1, hinv.2.2.2, rfl, hsa⟩

/-- Claim C3: in the multi-agent branch, the loop's episode-termination
flag after a step equals the value of the `"__all__"` sentinel in the done
dict returned by `env.step`, and once the flag is true the loop performs no
further iteration. -/
theorem rollout_done_sentinel {σ : Type} (env : MAEnv σ) (ag : MAAgent)
    (out : Option String) (ns : Option Int) :
    (∀ (s : MALoopState σ) (b : Bool),
        (maStepOutAt env ag s).done.lookup "__all__" = some b →
        (maLoopBody env ag out s).done = b) ∧
    (∀ steps : Nat, loopGuard ns steps true = false) ∧
    (∀ (fuel : Nat) (s : MALoopState σ), s.done = true →
        maLoop env ag out ns fuel s = s) := by
  refine ⟨?_, ?_, ?_⟩
  · intro s b hb
    rw [maLoopBody_char]
    simp [maDoneAt, hb]
  · intro steps
    rfl
  · intro fuel s hd
    cases fuel with
    | zero => rfl
    | succ m =>
        rw [maLoop]
        simp [loopGuard, hd]

/-- Witness for claim C3: on the concrete two-step environment, the first
step's sentinel is false and so is the loop flag; a loop started on an
already-done state returns it unchanged. -/
theorem rollout_done_sentinel_w :
    (maLoopBody exEnvMA exAgMA none (maInitState exEnvMA exAgMA)).done = false ∧
    maLoop exEnvMA exAgMA none (some 10) 3
        { maInitState exEnvMA exAgMA with done := true } =
      { maInitState exEnvMA exAgMA with done := true } :=
  ⟨(rollout_done_sentinel exEnvMA exAgMA none (some 10)).1 _ false (by rfl),
   (rollout_done_sentinel exEnvMA exAgMA none (some 10)).2.2 3 _ rfl⟩

/-- Claim C4: in each iteration the action passed to `env.step` is the
chosen action clipped to the environment's action space exactly when the
`clip_actions` config flag is set, and the unmodified chosen action when it
is unset — in both the multi-agent and single-agent branches. -/
theorem rollout_clip_actions {σ σ' : Type} (env : MAEnv σ) (ag : MAAgent)
    (out : Option String) (s : MALoopState σ)
    (envS : SAEnv σ') (agS : SAAgent) (sS : SALoopState σ') :
    (ag.clipActions = true →
      maActionPassed env ag s = env.clipFn (maActionChosen ag s)) ∧
    (ag.clipActions = false →
      maActionPassed env ag s = maActionChosen ag s) ∧
    (maLoopBody env ag out s).envSt =
      (env.step s.envSt (maActionPassed env ag s)).1 ∧
    (maLoopBody env ag out s).outsTrace =
      s.outsTrace ++ [(env.step s.envSt (maActionPassed env ag s)).2] ∧
    (agS.clipActions = true →
      (saLoopBody envS agS out sS).envSt =
        (envS.step sS.envSt (envS.clipFn (agS.computeAction sS.state))).1) ∧
    (agS.clipActions = false →
      (saLoopBody envS agS out sS).envSt =
        (envS.step sS.envSt (agS.computeAction sS.state)).1) := by
  refine ⟨?_, ?_, ?_, ?_, ?_, ?_⟩
  · intro h; simp [maActionPassed, h]
  · intro h; simp [maActionPassed, h]
  · rw [maLoopBody_char]
  · rw [maLoopBody_char]
    rfl
  · intro h; simp [saLoopBody, h]
  · intro h; simp [saLoopBody, h]

/-- Witness for claim C4: with clipping enabled the multi-agent step uses
the clipped action dict; with it disabled the single-agent step uses the
raw chosen action. -/
theorem rollout_clip_actions_w :
    maActionPassed exEnvMA exAgMAclip (maInitState exEnvMA exAgMAclip) =
      exEnvMA.clipFn
        (maActionChosen exAgMAclip (maInitState exEnvMA exAgMAclip)) ∧
    (saLoopBody exEnvSA exAgSA none (saInitState exEnvSA)).envSt =
      (exEnvSA.step (saInitState exEnvSA).envSt
        (exAgSA.computeAction (saInitState exEnvSA).state)).1 :=
  ⟨(rollout_clip_actions exEnvMA exAgMAclip none
      (maInitState exEnvMA exAgMAclip) exEnvSA exAgSA
      (saInitState exEnvSA)).1 rfl,
   (rollout_clip_actions exEnvMA exAgMAclip none
      (maInitState exEnvMA exAgMAclip) exEnvSA exAgSA
      (saInitState exEnvSA)).2.2.2.2.2 rfl⟩

/-- Claim C7: with an output filename the recorded trajectory holds exactly
one `(state, action, next_state, reward, done)` entry per executed step,
appended in step order, and is written exactly once after the loop; with no
output filename nothing is recorded or written — in both branches. -/
theorem rollout_trajectory_spec {σ σ' : Type} (env : MAEnv σ) (ag : MAAgent)
    (ns : Option Int) (fuel : Nat) (fname : String)
    (envS : SAEnv σ') (agS : SAAgent) (nsS : Option Int) (fuelS : Nat) :
    (maRollout env ag ns (some fname) fuel).trajWrites =
      [(maRollout env ag ns (some fname) fuel).final.traj] ∧
    (maRollout env ag ns (some fname) fuel).final.traj.length =
      (maRollout env ag ns (some fname) fuel).final.steps ∧
    (∀ s : MALoopState σ,
      (maLoopBody env ag (some fname) s).traj =
        s.traj ++ [maTransAt env ag s]) ∧
    (maRollout env ag ns none fuel).trajWrites = [] ∧
    (maRollout env ag ns none fuel).final.traj = [] ∧
    (saRollout envS agS nsS (some fname) fuelS).trajWrites =
      [(saRollout envS agS nsS (some fname) fuelS).final.traj] ∧
    (saRollout envS agS nsS (some fname) fuelS).final.traj.length =
      (saRollout envS agS nsS (some fname) fuelS).final.steps ∧
    (saRollout envS agS nsS none fuelS).trajWrites = [] ∧
    (saRollout envS agS nsS none fuelS).final.traj = [] := by
  refine ⟨rfl, ?_, ?_, rfl, ?_, rfl, ?_, rfl, ?_⟩
  · exact maLoop_preserves env ag (some fname) ns
      (fun s => s.traj.length = s.steps)
      (fun s h => by rw [maLoopBody_char]; simp [h]) fuel _ rfl
  · intro s
    rw [maLoopBody_char]
    rfl
  · exact maLoop_preserves env ag none ns (fun s => s.traj = [])
      (fun s h => by rw [maLoopBody_char]; simp [h]) fuel _ rfl
  · exact saLoop_preserves envS agS (some fname) nsS
      (fun s => s.traj.length = s.steps)
      (fun s h => by simp [saLoopBody, h]) fuelS _ rfl
  · exact saLoop_preserves envS agS none nsS (fun s => s.traj = [])
      (fun s h => by simp [saLoopBody, h]) fuelS _ rfl

/-- Claim C8 counterexample: in a two-step rollout in which every state
dict holds the single agent id `"a"`, the mapping cache ends with exactly
that one entry, yet `policy_agent_mapping` is evaluated twice — once per
step — because `dict.setdefault` evaluates its default argument eagerly.
This refutes "evaluated at most once per distinct agent id". -/
theorem mapping_cache_cex :
    (maRollout exEnvMA exAgMA (some 10) none 20).final.steps = 2 ∧
    (maRollout exEnvMA exAgMA (some 10) none 20).final.cache = [("a", "p")] ∧
    (maRollout exEnvMA exAgMA (some 10) none 20).final.evals = 2 :=
  ⟨rfl, rfl, rfl⟩

/-- Claim C8 (amended): every cached entry for an agent id equals the
policy-mapping function applied to that agent id (later steps reuse the
cached policy id as the value stored), but the policy-mapping function is
evaluated once per agent with a non-`None` observation on every step —
`setdefault`'s default argument is evaluated eagerly — not at most once per
distinct agent id across the rollout. -/
theorem mapping_cache_spec {σ : Type} (env : MAEnv σ) (ag : MAAgent)
    (ns : Option Int) (out : Option String) (fuel : Nat) :
    (∀ p ∈ (maRollout env ag ns out fuel).final.cache,
        p.2 = ag.policyMappingFn p.1) ∧
    (∀ s : MALoopState σ,
        (maLoopBody env ag out s).evals = s.evals + countSomeObs s.state) := by
  constructor
  · exact maLoop_preserves env ag out ns
      (fun s => ∀ p ∈ s.cache, p.2 = ag.policyMappingFn p.1)
      (fun s h p hp => by
        rw [maLoopBody_char] at hp
        rcases maSelectActions_cache_mem ag s.state s.cache s.stateInit
          s.evals p hp with hm | he
        · exact h p hm
        · exact he) fuel _ (by intro p hp; simp [maInitState] at hp)
  · intro s
    rw [maLoopBody_char]
    exact maSelectActions_evals ag s.state s.cache s.stateInit s.evals

/-- Witness for the amended claim C8: on the concrete rollout the cached
pair for agent `"a"` is the policy-mapping image of `"a"`. -/
theorem mapping_cache_spec_w :
    ("p" : String) = exAgMA.policyMappingFn "a" :=
  (mapping_cache_spec exEnvMA exAgMA (some 10) none 20).1 ("a", "p")
    (by decide)

/-- Claim C9: in an iteration with clipping applied, the transition
appended to the recorded trajectory stores the original unclipped action
chosen by the policy, while the clipped action is what reaches
`env.step`. -/
theorem rollout_records_unclipped_action {σ : Type} (env : MAEnv σ)
    (ag : MAAgent) (s : MALoopState σ) (fname : String)
    (hclip : ag.clipActions = true) :
    (maLoopBody env ag (some fname) s).traj =
      s.traj ++ [maTransAt env ag s] ∧
    (maTransAt env ag s).action = maActionChosen ag s ∧
    maActionPassed env ag s = env.clipFn (maActionChosen ag s) ∧
    (maLoopBody env ag (some fname) s).outsTrace =
      s.outsTrace ++
        [(env.step s.envSt (env.clipFn (maActionChosen ag s))).2] := by
  refine ⟨?_, rfl, ?_, ?_⟩
  · rw [maLoopBody_char]
    rfl
  · simp [maActionPassed, hclip]
  · rw [maLoopBody_char]
    simp [maStepOutAt, maActionPassed, hclip]

/-- Witness for claim C9 on the concrete clipping agent: the recorded
transition is appended with the unclipped chosen action. -/
theorem rollout_records_unclipped_action_w :
    (maLoopBody exEnvMA exAgMAclip (some "out.pkl")
        (maInitState exEnvMA exAgMAclip)).traj =
      (maInitState exEnvMA exAgMAclip).traj ++
        [maTransAt exEnvMA exAgMAclip (maInitState exEnvMA exAgMAclip)] :=
  (rollout_records_unclipped_action exEnvMA exAgMAclip
    (maInitState exEnvMA exAgMAclip) "out.pkl" rfl).1

/-- Claim C10: the step counter starts at 0 and increments by exactly one
per iteration; for `num_steps > 0` the loop executes at most `num_steps`
iterations and its guard fails as soon as the counter reaches `num_steps`
or the episode is done; for `num_steps` equal to `0` or `None` the guard
degenerates to `not done`, imposing no step bound. -/
theorem rollout_step_bound {σ : Type} (env : MAEnv σ) (ag : MAAgent)
    (out : Option String) (fuel : Nat) :
    ((maInitState env ag).steps = 0) ∧
    (∀ s : MALoopState σ, (maLoopBody env ag out s).steps = s.steps + 1) ∧
    (∀ n : Int, 0 < n →
      ((maRollout env ag (some n) out fuel).final.steps : Int) ≤ n) ∧
    (∀ n : Int, n ≠ 0 → ∀ steps : Nat, n ≤ (steps : Int) →
      loopGuard (some n) steps false = false) ∧
    (∀ (steps : Nat) (d : Bool), loopGuard (some 0) steps d = !d) ∧
    (∀ (steps : Nat) (d : Bool), loopGuard none steps d = !d) := by
  refine ⟨rfl, ?_, ?_, ?_, ?_, ?_⟩
  · intro s
    rw [maLoopBody_char]
  · intro n hn
    exact maLoop_steps_le env ag out n hn fuel (maInitState env ag)
      (by simp [maInitState]; omega)
  · intro n hn0 steps hns
    have hne : (n == 0) = false := by
      simp only [beq_eq_false_iff_ne, ne_eq]
      exact hn0
    simp [loopGuard, pyOrInt, hne]
    omega
  · intro steps d
    cases d <;> simp [loopGuard, pyOrInt]
  · intro steps d
    cases d <;> simp [loopGuard, pyOrInt]

/-- Witness for claim C10: with `num_steps = 1` the concrete rollout stops
after at most one step, and the guard fails at the bound. -/
theorem rollout_step_bound_w :
    ((maRollout exEnvMA exAgMA (some 1) none 20).final.steps : Int) ≤ 1 ∧
    loopGuard (some 1) 1 false = false :=
  ⟨(rollout_step_bound exEnvMA exAgMA none 20).2.2.1 1 (by decide),
   (rollout_step_bound exEnvMA exAgMA none 20).2.2.2.1 1 (by decide) 1
     (by decide)⟩

end TLS
